import Mathlib

set_option autoImplicit false

/-!
Shallow embedding of the mapbox_optimizer ride-matching core (src/models.py):
the routing-oracle client (`MapboxOptimizer`), the entity model
(`User`/`Driver`/`Rider`/`Ride`) and the assignment engine (`RideManager`),
together with theorems settling the specification claims.

Python floats are modelled as rationals; the remote Mapbox service is a
parameter (`Server`) whose `none` answers cover transport failures, empty
`routes`/`trips`/`matchings` arrays and malformed responses alike, exactly
the cases the source maps to `None`.  Object identity of `Rider`/`Driver`
objects is modelled by numeric ids with a world table, so the mutable
`rider.ride` back-references alias correctly.
-/

/-- A coordinate pair of rationals.  Which component is latitude and which is
longitude depends on the context, exactly as for the two-element lists in the
source: entity fields hold (lat, lon), oracle responses hold (lon, lat). -/
abbrev Coord := ℚ × ℚ

/-- Swap the two components of a coordinate pair.  This is the axis swap the
source performs when it builds the `lon,lat` request strings from internal
(lat, lon) data, and in comprehensions such as
`[[lat, lon] for lon, lat in route['geometry']]`. -/
def swapCoord (c : Coord) : Coord := (c.2, c.1)

/-- Parsed body of a Directions-API response (`data["routes"][0]`): raw metres,
seconds, and GeoJSON (lon, lat) geometry. -/
structure RawRoute where
  distance : ℚ
  duration : ℚ
  geometry : List Coord
deriving DecidableEq

/-- Parsed body of an Optimized-Trips response: `data["trips"][0]` plus the
`waypoint_index` of each entry of `data["waypoints"]` and the raw leg
durations in seconds. -/
structure RawTrip where
  geometry : List Coord
  distance : ℚ
  duration : ℚ
  waypoints : List ℕ
  legs : List ℚ
deriving DecidableEq

/-- Parsed body of a Map-Matching response (`data["matchings"][0]`). -/
structure RawMatch where
  geometry : List Coord
  distance : ℚ
  duration : ℚ
deriving DecidableEq

/-- The remote Mapbox service.  Every request carries its coordinates in
(lon, lat) order, as in the URL strings the source builds.  A `none` result
models a `requests.RequestException`, a non-2xx status, or a response with no
usable `routes`/`trips`/`matchings` entry. -/
structure Server where
  directions : Coord → Coord → Option RawRoute
  optimizedTrips : List Coord → Option RawTrip
  matchings : List Coord → Option RawMatch

/-- Result dictionary of `MapboxOptimizer.calculate_direct_route`:
distance in km, duration in minutes, geometry kept exactly as the response's
(lon, lat) coordinate list. -/
structure DirectRouteResult where
  distance : ℚ
  duration : ℚ
  geometry : List Coord
deriving DecidableEq

/-- `MapboxOptimizer.calculate_direct_route`: requests
`f"{start[1]},{start[0]};{end[1]},{end[0]}"`, i.e. the swapped internal
coordinates, and converts metres→km and seconds→minutes.  The response
geometry is stored without any swap. -/
def calculate_direct_route (srv : Server) (start endpoint : Coord) :
    Option DirectRouteResult :=
  match srv.directions (swapCoord start) (swapCoord endpoint) with
  | none => none
  | some r =>
      some { distance := r.distance / 1000, duration := r.duration / 60,
             geometry := r.geometry }

/-- The route dictionary stored in `Ride.route`.  All construction sites in
the source populate `distance`, `duration`, `waypoint_indices`,
`leg_durations` and `geometry`; only the solo-route dictionaries also carry a
`matched_geometry` key, hence that field is an `Option`. -/
structure RouteDict where
  distance : ℚ
  duration : ℚ
  waypoint_indices : List ℕ
  leg_durations : List ℚ
  geometry : List Coord
  matched_geometry : Option (List Coord)
deriving DecidableEq

/-- `MapboxOptimizer.calculate_optimized_route`: rejects coordinate counts
outside 2..12 before contacting the service, sends the coordinates swapped to
(lon, lat), treats a `waypoints` count differing from the request count as a
failed call, and converts units.  Geometry is stored unswapped. -/
def calculate_optimized_route (srv : Server) (coordinates : List Coord) :
    Option RouteDict :=
  if coordinates.length < 2 ∨ 12 < coordinates.length then none
  else
    match srv.optimizedTrips (coordinates.map swapCoord) with
    | none => none
    | some trip =>
        if trip.waypoints.length ≠ coordinates.length then none
        else
          some { geometry := trip.geometry,
                 distance := trip.distance / 1000,
                 duration := trip.duration / 60,
                 waypoint_indices := trip.waypoints,
                 leg_durations := trip.legs.map (fun d => d / 60),
                 matched_geometry := none }

/-- Python list slice `l[::k]` for a positive step `k`: the elements whose
index is a multiple of `k`. -/
def sliceStep {α : Type} (k : ℕ) (l : List α) : List α :=
  (l.enum.filter (fun p => p.1 % k = 0)).map Prod.snd

/-- Result dictionary of `MapboxOptimizer.match_route_to_roads`. -/
structure MatchResult where
  geometry : List Coord
  distance : ℚ
  duration : ℚ
deriving DecidableEq

/-- `MapboxOptimizer.match_route_to_roads`: needs at least two coordinates,
downsamples more than 100 of them via `coordinates[::len//100 + 1][:100]`,
sends them swapped to (lon, lat), and keeps the response geometry unswapped. -/
def match_route_to_roads (srv : Server) (coordinates : List Coord) :
    Option MatchResult :=
  if coordinates.length < 2 then none
  else
    let coords :=
      if 100 < coordinates.length then
        (sliceStep (coordinates.length / 100 + 1) coordinates).take 100
      else coordinates
    match srv.matchings (coords.map swapCoord) with
    | none => none
    | some m =>
        some { geometry := m.geometry, distance := m.distance / 1000,
               duration := m.duration / 60 }

/-- A `Rider` object.  `rid` models object identity; `ride` is the mutable
`User._ride` back-reference, holding the id of the driver whose `Ride`
currently contains this rider (each driver owns exactly one `Ride`). -/
structure RiderU where
  rid : ℕ
  name : String
  home : Coord
  workplace : Coord
  workplace_name : String
  ride : Option ℕ
  direct_route : Option DirectRouteResult
deriving DecidableEq

/-- `Rider.__init__`: the back-reference starts at `None`, and
`_create_direct_route` returns `None` on any failure (exception caught). -/
def riderInit (srv : Server) (rid : ℕ) (name : String) (home workplace : Coord)
    (workplace_name : String) : RiderU :=
  { rid, name, home, workplace, workplace_name, ride := none,
    direct_route := calculate_direct_route srv home workplace }

/-- A `Ride` object's fields.  `riders` holds rider ids (the source stores
the `Rider` objects themselves; ids model their identity). -/
structure RideData where
  riders : List ℕ
  start : Coord
  stops : List Coord
  destination : Coord
  route : RouteDict
  matched_geometry : List Coord
  distance : ℚ
  duration : ℚ
  direct_duration : ℚ
  detour : ℚ
  waypoint_order : List ℕ
  leg_durations : List ℚ
deriving DecidableEq

/-- `Ride.__init__` given the driver's endpoints, the rider list and the home
coordinate of each rider id (`homes` models dereferencing the stored `Rider`
objects).  `detour` is `duration - direct_duration if duration >
direct_duration else 0.0`; `matched_geometry` is
`route.get('matched_geometry', route.get('geometry', []))`. -/
def mkRide (start destination : Coord) (riders : List ℕ) (homes : ℕ → Coord)
    (route : RouteDict) (direct_duration : ℚ) : RideData :=
  { riders, start, stops := riders.map homes, destination, route,
    matched_geometry := route.matched_geometry.getD route.geometry,
    distance := route.distance, duration := route.duration, direct_duration,
    detour := if direct_duration < route.duration
              then route.duration - direct_duration else 0,
    waypoint_order := route.waypoint_indices,
    leg_durations := route.leg_durations }

/-- `Ride.update_ride` as called by the assignment engine (the `optimizer`
argument is always `self.optimizer`, never `None`, at both call sites).  When
the new route has a non-empty geometry it is swapped to (lat, lon) and sent
to `match_route_to_roads`; the matched (or, on failure, the raw) geometry is
stored back without a swap. -/
def updateRide (srv : Server) (r : RideData) (riders : List ℕ)
    (homes : ℕ → Coord) (route : RouteDict) (direct_duration : ℚ) : RideData :=
  { r with
    riders, stops := riders.map homes, route,
    distance := route.distance, duration := route.duration, direct_duration,
    detour := if direct_duration < route.duration
              then route.duration - direct_duration else 0,
    waypoint_order := route.waypoint_indices,
    leg_durations := route.leg_durations,
    matched_geometry :=
      if route.geometry = [] then route.geometry
      else
        match match_route_to_roads srv (route.geometry.map swapCoord) with
        | some m => m.geometry
        | none => route.geometry }

/-- A `Driver` object.  `ride` is an `Option` because `Driver.__init__`
catches the `ValueError` raised by `_create_solo_ride` and then stores
`None` (see `driverInit`). -/
structure DriverU where
  did : ℕ
  name : String
  home : Coord
  workplace : Coord
  workplace_name : String
  max_detour_minutes : ℚ
  max_riders : ℤ
  ride : Option RideData
deriving DecidableEq

/-- `Driver._create_solo_ride`: `none` models the `ValueError` raised when
the direct-route query fails; otherwise a solo route dictionary with
`waypoint_indices = [0, 1]`, a single leg, and `matched_geometry` equal to
the raw geometry is wrapped into a `Ride` with no riders. -/
def createSoloRide (srv : Server) (home workplace : Coord) : Option RideData :=
  match calculate_direct_route srv home workplace with
  | none => none
  | some dr =>
      let route : RouteDict :=
        { distance := dr.distance, duration := dr.duration,
          waypoint_indices := [0, 1], leg_durations := [dr.duration],
          geometry := dr.geometry, matched_geometry := some dr.geometry }
      some (mkRide home workplace [] (fun _ => (0, 0)) route dr.duration)

/-- `Driver.__init__`.  The `try` block assigns `_create_solo_ride`'s result,
raising `ValueError` if it is `None`; the enclosing `except` catches that
very exception and sets `self.ride = None`, so construction always completes
and yields a `Driver` whose `ride` is `None` exactly when the solo route
could not be computed. -/
def driverInit (srv : Server) (did : ℕ) (name : String) (home workplace : Coord)
    (workplace_name : String) (max_detour_minutes : ℚ) (max_riders : ℤ) :
    DriverU :=
  { did, name, home, workplace, workplace_name, max_detour_minutes, max_riders,
    ride := createSoloRide srv home workplace }

/-- The distinct message templates `RideManager` appends to
`failed_attempts`: "does not match workplace", "already has a ride",
"ride is full", "exceeds max detour of ... minutes" (appended both when the
optimized-route query fails and when the detour budget is exceeded), and
"Error adding ..." from the blanket `except` clause. -/
inductive Reason
  | workplaceMismatch
  | alreadyHasRide
  | rideIsFull
  | exceedsMaxDetour
  | errorAdding
deriving DecidableEq

/-- The session state: every `Rider` and `Driver` object (each `Driver`
owning its `Ride`), plus the manager's `failed_attempts` log. -/
structure World where
  riders : List RiderU
  drivers : List DriverU
  failed_attempts : List Reason
deriving DecidableEq

def World.getRider (w : World) (i : ℕ) : Option RiderU :=
  w.riders.find? (fun r => r.rid == i)

def World.getDriver (w : World) (i : ℕ) : Option DriverU :=
  w.drivers.find? (fun d => d.did == i)

/-- Dereference a rider id to its home coordinate (the source holds the
object directly; reachable calls only ever dereference ids present in the
world). -/
def World.homeOf (w : World) (i : ℕ) : Coord :=
  ((w.getRider i).map RiderU.home).getD (0, 0)

/-- Assign `rider.ride = v` for the rider object with id `i`. -/
def World.setRiderRide (w : World) (i : ℕ) (v : Option ℕ) : World :=
  { w with riders :=
      w.riders.map fun r => if r.rid = i then { r with ride := v } else r }

/-- Assign `rider.ride = some did` for every rider id in `is` (the
`for rider in ride.riders: rider.ride = ride` loops). -/
def World.setRidersRide (w : World) (is : List ℕ) (did : ℕ) : World :=
  { w with riders :=
      w.riders.map fun r => if r.rid ∈ is then { r with ride := some did } else r }

/-- Store an updated `Ride` into its owning driver (`ride.driver.ride =
ride`; in the source the `Ride` object is mutated in place, so the driver's
reference observes the update). -/
def World.setDriverRide (w : World) (i : ℕ) (rd : RideData) : World :=
  { w with drivers :=
      w.drivers.map fun d => if d.did = i then { d with ride := some rd } else d }

/-- `self.failed_attempts.append(...)`. -/
def World.logFail (w : World) (m : Reason) : World :=
  { w with failed_attempts := w.failed_attempts ++ [m] }

/-- `RideManager.add_rider_to_ride(driver.ride, new_rider)`, acting on the
driver with id `did` and the candidate rider with id `rid`.  The `d.ride =
none` branch models the caller passing `None` as the ride: the attribute
access `ride.driver` raises, the blanket `except` appends the error reason
and returns `False`.  Ids absent from the world correspond to objects that
do not exist and leave the world unchanged. -/
def addRiderToRide (srv : Server) (w : World) (did rid : ℕ) : World × Bool :=
  match w.getDriver did, w.getRider rid with
  | some d, some new_rider =>
    match d.ride with
    | none => (w.logFail .errorAdding, false)
    | some ride =>
      if new_rider.workplace ≠ d.workplace then
        (w.logFail .workplaceMismatch, false)
      else if new_rider.ride.isSome then
        (w.logFail .alreadyHasRide, false)
      else if d.max_riders ≤ (ride.riders.length : ℤ) then
        (w.logFail .rideIsFull, false)
      else
        let max_allowed_duration := ride.direct_duration + d.max_detour_minutes
        let new_riders := ride.riders ++ [rid]
        let coordinates :=
          ride.start :: (new_riders.map w.homeOf ++ [ride.destination])
        match calculate_optimized_route srv coordinates with
        | none => (w.logFail .exceedsMaxDetour, false)
        | some new_route =>
          if max_allowed_duration < new_route.duration then
            (w.logFail .exceedsMaxDetour, false)
          else
            let ride' := updateRide srv ride new_riders w.homeOf new_route
              ride.direct_duration
            ((w.setRidersRide new_riders did).setDriverRide did ride', true)
  | _, _ => (w, false)

/-- Result of `RideManager.calculate_matching_score` together with a flag
recording whether control reached the speculative optimized-route request
(`self.optimizer.calculate_optimized_route(coordinates)`); when the flag is
`false` no oracle interaction of any kind happened. -/
structure ScoreResult where
  score : ℚ
  queried : Bool
deriving DecidableEq

/-- The `closest_distance` loop of `calculate_matching_score`: starting from
`float('inf')` (modelled as `none`), fold over the (lon, lat) points of the
ride's `matched_geometry` taking the minimum of
`sqrt((home[0]-lat)^2 + (home[1]-lon)^2) * 111`.  `sqrtFn` abstracts Python's
`math.sqrt`, which has no exact rational counterpart. -/
def closestDistanceTo (sqrtFn : ℚ → ℚ) (home : Coord) (geometry : List Coord) :
    Option ℚ :=
  geometry.foldl
    (fun acc c =>
      let dist := sqrtFn ((home.1 - c.2) ^ 2 + (home.2 - c.1) ^ 2) * 111
      match acc with
      | none => some dist
      | some m => some (min m dist))
    none

/-- `RideManager.calculate_matching_score(driver, rider)`.  `homes`
dereferences the rider ids stored in the driver's ride (the source holds the
`Rider` objects directly).  The `driver.ride = none` branch models the
`AttributeError` raised by `driver.ride.matched_geometry`, caught by the
blanket `except` which returns `0.0`; at that point no oracle query has been
issued.  With an empty geometry `closest_distance` stays `inf`, so
`max(0.0, 1.0 - inf/50)` is `0.0`, which the `none` case of `closest`
reproduces. -/
def calculate_matching_score (srv : Server) (sqrtFn : ℚ → ℚ)
    (homes : ℕ → Coord) (driver : DriverU) (rider : RiderU) : ScoreResult :=
  if rider.workplace ≠ driver.workplace ∨ rider.ride.isSome = true then
    { score := 0, queried := false }
  else
    match driver.ride with
    | none => { score := 0, queried := false }
    | some ride =>
      let closest := closestDistanceTo sqrtFn rider.home ride.matched_geometry
      let max_allowed_duration :=
        ride.direct_duration + driver.max_detour_minutes
      let coordinates :=
        ride.start :: ((ride.riders.map homes ++ [rider.home]) ++
          [ride.destination])
      match calculate_optimized_route srv coordinates with
      | none => { score := 0, queried := true }
      | some new_route =>
        if max_allowed_duration < new_route.duration then
          { score := 0, queried := true }
        else
          let detour_time := new_route.duration - ride.direct_duration
          let detour_distance := new_route.distance - ride.route.distance
          let time_score :=
            if 0 < driver.max_detour_minutes then
              max 0 (1 - detour_time / driver.max_detour_minutes)
            else 0
          let distance_score :=
            if 0 < ride.route.distance then
              max 0 (1 - detour_distance / ride.route.distance)
            else 0
          let closest_distance_score :=
            match closest with
            | none => (0 : ℚ)
            | some c => max 0 (1 - c / 50)
          let score := (7 / 10) * time_score +
            (2 / 10) * closest_distance_score + (1 / 10) * distance_score
          { score := min (max score 0) 1, queried := true }

/-- `RideManager.remove_rider_from_ride(driver.ride, rider)`.  With zero
riders remaining (two coordinates), the route is recomputed via
`calculate_direct_route` and a two-point route dictionary is synthesized;
otherwise via `calculate_optimized_route`.  Failure paths return `False`
without touching any state (this method never appends to
`failed_attempts`). -/
def removeRiderFromRide (srv : Server) (w : World) (did rid : ℕ) :
    World × Bool :=
  match w.getDriver did, w.getRider rid with
  | some d, some _ =>
    match d.ride with
    | none => (w, false)
    | some ride =>
      if rid ∈ ride.riders then
        let new_riders := ride.riders.filter (fun r => r != rid)
        let coordinates :=
          ride.start :: (new_riders.map w.homeOf ++ [ride.destination])
        let new_route? : Option RouteDict :=
          if coordinates.length = 2 then
            match calculate_direct_route srv ride.start ride.destination with
            | none => none
            | some dr =>
                some { distance := dr.distance, duration := dr.duration,
                       waypoint_indices := [0, 1],
                       leg_durations := [dr.duration],
                       geometry := dr.geometry,
                       matched_geometry := some dr.geometry }
          else calculate_optimized_route srv coordinates
        match new_route? with
        | none => (w, false)
        | some new_route =>
          let ride' := updateRide srv ride new_riders w.homeOf new_route
            ride.direct_duration
          (((w.setRiderRide rid none).setRidersRide new_riders did).setDriverRide
             did ride', true)
      else (w, false)
  | _, _ => (w, false)

/-! ### Basic lemmas about the world operations -/

theorem World.riders_setDriverRide (w : World) (i : ℕ) (rd : RideData) :
    (w.setDriverRide i rd).riders = w.riders := rfl

theorem World.riders_setRiderRide (w : World) (i : ℕ) (v : Option ℕ) :
    (w.setRiderRide i v).riders =
      w.riders.map fun r => if r.rid = i then { r with ride := v } else r := rfl

theorem World.riders_setRidersRide (w : World) (is : List ℕ) (did : ℕ) :
    (w.setRidersRide is did).riders =
      w.riders.map fun r =>
        if r.rid ∈ is then { r with ride := some did } else r := rfl

theorem World.drivers_setRiderRide (w : World) (i : ℕ) (v : Option ℕ) :
    (w.setRiderRide i v).drivers = w.drivers := rfl

theorem World.drivers_setRidersRide (w : World) (is : List ℕ) (did : ℕ) :
    (w.setRidersRide is did).drivers = w.drivers := rfl

theorem World.drivers_setDriverRide (w : World) (i : ℕ) (rd : RideData) :
    (w.setDriverRide i rd).drivers =
      w.drivers.map fun d =>
        if d.did = i then { d with ride := some rd } else d := rfl

theorem World.getRider_congr {w w' : World} (h : w'.riders = w.riders) (j : ℕ) :
    w'.getRider j = w.getRider j := by
  unfold World.getRider; rw [h]

theorem World.getDriver_congr {w w' : World} (h : w'.drivers = w.drivers)
    (j : ℕ) : w'.getDriver j = w.getDriver j := by
  unfold World.getDriver; rw [h]

theorem World.homeOf_congr {w w' : World} (h : w'.riders = w.riders) (j : ℕ) :
    w'.homeOf j = w.homeOf j := by
  unfold World.homeOf; rw [World.getRider_congr h]

theorem World.getRider_setRiderRide (w : World) (i : ℕ) (v : Option ℕ)
    (j : ℕ) :
    (w.setRiderRide i v).getRider j =
      (w.getRider j).map
        (fun r => if r.rid = i then { r with ride := v } else r) := by
  unfold World.getRider World.setRiderRide
  rw [List.find?_map]
  have hp : ((fun x : RiderU => x.rid == j) ∘
      fun r => if r.rid = i then { r with ride := v } else r) =
      fun r : RiderU => r.rid == j := by
    funext r; by_cases h : r.rid = i <;> simp [Function.comp, h]
  rw [hp]

theorem World.getRider_setRidersRide (w : World) (is : List ℕ) (did j : ℕ) :
    (w.setRidersRide is did).getRider j =
      (w.getRider j).map
        (fun r => if r.rid ∈ is then { r with ride := some did } else r) := by
  unfold World.getRider World.setRidersRide
  rw [List.find?_map]
  have hp : ((fun x : RiderU => x.rid == j) ∘
      fun r => if r.rid ∈ is then { r with ride := some did } else r) =
      fun r : RiderU => r.rid == j := by
    funext r; by_cases h : r.rid ∈ is <;> simp [Function.comp, h]
  rw [hp]

theorem World.homeOf_setRiderRide (w : World) (i : ℕ) (v : Option ℕ) (j : ℕ) :
    (w.setRiderRide i v).homeOf j = w.homeOf j := by
  unfold World.homeOf
  rw [World.getRider_setRiderRide]
  cases w.getRider j with
  | none => rfl
  | some r => by_cases h : r.rid = i <;> simp [h]

theorem World.homeOf_setRidersRide (w : World) (is : List ℕ) (did j : ℕ) :
    (w.setRidersRide is did).homeOf j = w.homeOf j := by
  unfold World.homeOf
  rw [World.getRider_setRidersRide]
  cases w.getRider j with
  | none => rfl
  | some r => by_cases h : r.rid ∈ is <;> simp [h]

theorem World.homeOf_setDriverRide (w : World) (i : ℕ) (rd : RideData)
    (j : ℕ) : (w.setDriverRide i rd).homeOf j = w.homeOf j := rfl

/-- `find?` on an id key retrieves exactly the element when ids are
duplicate-free. -/
theorem find?_key_of_mem {α : Type} (key : α → ℕ) {l : List α}
    (hnd : (l.map key).Nodup) {a : α} (ha : a ∈ l) :
    l.find? (fun x => key x == key a) = some a := by
  induction l with
  | nil => cases ha
  | cons b t ih =>
    have hnd' : (t.map key).Nodup := (List.nodup_cons.mp (by simpa using hnd)).2
    rcases List.mem_cons.mp ha with rfl | ha'
    · simp
    · have hne : key b ≠ key a := by
        intro h
        have hb : key a ∈ t.map key := List.mem_map_of_mem key ha'
        have hcons : key b ∉ t.map key :=
          (List.nodup_cons.mp (by simpa using hnd)).1
        rw [← h] at hb
        exact hcons hb
      rw [List.find?_cons_of_neg _ (by simpa using hne)]
      exact ih hnd' ha'

theorem World.getRider_of_mem {w : World}
    (hnd : (w.riders.map RiderU.rid).Nodup) {r : RiderU} (hr : r ∈ w.riders) :
    w.getRider r.rid = some r :=
  find?_key_of_mem RiderU.rid hnd hr

theorem World.getDriver_of_mem {w : World}
    (hnd : (w.drivers.map DriverU.did).Nodup) {d : DriverU}
    (hd : d ∈ w.drivers) : w.getDriver d.did = some d :=
  find?_key_of_mem DriverU.did hnd hd

theorem World.getRider_mem {w : World} {j : ℕ} {r : RiderU}
    (h : w.getRider j = some r) : r ∈ w.riders :=
  List.mem_of_find?_eq_some h

theorem World.getRider_rid {w : World} {j : ℕ} {r : RiderU}
    (h : w.getRider j = some r) : r.rid = j := by
  have := List.find?_some h
  simpa using this

theorem World.getDriver_mem {w : World} {j : ℕ} {d : DriverU}
    (h : w.getDriver j = some d) : d ∈ w.drivers :=
  List.mem_of_find?_eq_some h

theorem World.getDriver_did {w : World} {j : ℕ} {d : DriverU}
    (h : w.getDriver j = some d) : d.did = j := by
  have := List.find?_some h
  simpa using this

/-- Two listed drivers with the same id coincide when ids are
duplicate-free. -/
theorem driver_eq_of_did {w : World}
    (hnd : (w.drivers.map DriverU.did).Nodup) {d d' : DriverU}
    (hd : d ∈ w.drivers) (hd' : d' ∈ w.drivers) (h : d.did = d'.did) :
    d = d' := by
  have h1 := World.getDriver_of_mem hnd hd
  have h2 := World.getDriver_of_mem hnd hd'
  rw [h] at h1
  rw [h1] at h2
  exact (Option.some.injEq _ _).mp h2

/-- Two listed riders with the same id coincide when ids are
duplicate-free. -/
theorem rider_eq_of_rid {w : World}
    (hnd : (w.riders.map RiderU.rid).Nodup) {r r' : RiderU}
    (hr : r ∈ w.riders) (hr' : r' ∈ w.riders) (h : r.rid = r'.rid) :
    r = r' := by
  have h1 := World.getRider_of_mem hnd hr
  have h2 := World.getRider_of_mem hnd hr'
  rw [h] at h1
  rw [h1] at h2
  exact (Option.some.injEq _ _).mp h2

/-! ### Characterization of the two mutating operations -/

/-- `add_rider_to_ride` either declines, leaving every rider and driver
object untouched (only the `failed_attempts` log may grow), or all four
validation checks passed and it commits exactly the update the source
performs. -/
theorem addRiderToRide_spec (srv : Server) (w : World) (did rid : ℕ) :
    ((addRiderToRide srv w did rid).2 = false ∧
     (addRiderToRide srv w did rid).1.riders = w.riders ∧
     (addRiderToRide srv w did rid).1.drivers = w.drivers) ∨
    (∃ d r ride new_route,
      w.getDriver did = some d ∧ w.getRider rid = some r ∧
      d.ride = some ride ∧ r.workplace = d.workplace ∧ r.ride = none ∧
      (ride.riders.length : ℤ) < d.max_riders ∧
      calculate_optimized_route srv
        (ride.start :: ((ride.riders ++ [rid]).map w.homeOf ++ [ride.destination]))
        = some new_route ∧
      new_route.duration ≤ ride.direct_duration + d.max_detour_minutes ∧
      addRiderToRide srv w did rid =
        ((w.setRidersRide (ride.riders ++ [rid]) did).setDriverRide did
          (updateRide srv ride (ride.riders ++ [rid]) w.homeOf new_route
            ride.direct_duration), true)) := by
  unfold addRiderToRide
  repeat' split
  all_goals try (left; exact ⟨rfl, rfl, rfl⟩)
  rename_i xd xr d r hd hr xrd ride hride hwp hhas hcap
  dsimp only
  split
  · left; exact ⟨rfl, rfl, rfl⟩
  · rename_i new_route hroute
    split
    · left; exact ⟨rfl, rfl, rfl⟩
    · rename_i hdur
      right
      refine ⟨d, r, ride, new_route, hd, hr, hride, not_not.mp hwp,
        Option.not_isSome_iff_eq_none.mp hhas, lt_of_not_le hcap, ?_,
        le_of_not_lt hdur, ?_⟩
      · simpa using hroute
      · simp

/-- `remove_rider_from_ride` either declines, leaving the whole world
untouched, or the rider was present, the recomputation succeeded (via the
direct route when no rider remains, via the optimized route otherwise), and
it commits exactly the update the source performs. -/
theorem removeRiderFromRide_spec (srv : Server) (w : World) (did rid : ℕ) :
    ((removeRiderFromRide srv w did rid).2 = false ∧
     (removeRiderFromRide srv w did rid).1 = w) ∨
    (∃ d ride new_route,
      w.getDriver did = some d ∧ d.ride = some ride ∧ rid ∈ ride.riders ∧
      removeRiderFromRide srv w did rid =
        (((w.setRiderRide rid none).setRidersRide
            (ride.riders.filter (fun r => r != rid)) did).setDriverRide did
          (updateRide srv ride (ride.riders.filter (fun r => r != rid))
            w.homeOf new_route ride.direct_duration), true) ∧
      ((ride.riders.filter (fun r => r != rid) = [] ∧
        ∃ dr, calculate_direct_route srv ride.start ride.destination = some dr ∧
          new_route = { distance := dr.distance, duration := dr.duration,
                        waypoint_indices := [0, 1],
                        leg_durations := [dr.duration],
                        geometry := dr.geometry,
                        matched_geometry := some dr.geometry }) ∨
       (ride.riders.filter (fun r => r != rid) ≠ [] ∧
        calculate_optimized_route srv (ride.start ::
          ((ride.riders.filter (fun r => r != rid)).map w.homeOf ++
            [ride.destination])) = some new_route))) := by
  unfold removeRiderFromRide
  repeat' split
  all_goals try (left; exact ⟨rfl, rfl⟩)
  · rename_i xd xr d nr hd hr xrd ride hride hmem xq hdirect
    dsimp only
    by_cases h2 : (ride.start :: (List.map w.homeOf
        (List.filter (fun r => r != rid) ride.riders) ++
        [ride.destination])).length = 2
    · rw [if_pos h2]; left; exact ⟨rfl, rfl⟩
    · rw [if_neg h2]
      cases hopt : calculate_optimized_route srv (ride.start ::
          (List.map w.homeOf (List.filter (fun r => r != rid) ride.riders) ++
          [ride.destination])) with
      | none => left; exact ⟨rfl, rfl⟩
      | some nr2 =>
        right
        refine ⟨d, ride, nr2, hd, hride, hmem, rfl, Or.inr ⟨?_, hopt⟩⟩
        intro hnil
        exact h2 (by simp [hnil])
  · rename_i xd xr d nr hd hr xrd ride hride hmem xq dr hdirect
    dsimp only
    by_cases h2 : (ride.start :: (List.map w.homeOf
        (List.filter (fun r => r != rid) ride.riders) ++
        [ride.destination])).length = 2
    · rw [if_pos h2]
      right
      refine ⟨d, ride, _, hd, hride, hmem, rfl, Or.inl ⟨?_, dr, hdirect, rfl⟩⟩
      rw [← List.length_eq_zero]
      simp only [List.length_cons, List.length_append, List.length_map] at h2
      omega
    · rw [if_neg h2]
      cases hopt : calculate_optimized_route srv (ride.start ::
          (List.map w.homeOf (List.filter (fun r => r != rid) ride.riders) ++
          [ride.destination])) with
      | none => left; exact ⟨rfl, rfl⟩
      | some nr2 =>
        right
        exact ⟨d, ride, nr2, hd, hride, hmem, rfl,
          Or.inr ⟨fun hnil => h2 (by simp [hnil]), hopt⟩⟩

/-! ### The inductive invariant of reachable session states -/

/-- The inductive invariant maintained by the assignment engine: bounded
rider lists of matching workplace, the detour formula, stops aligned with
rider homes, duplicate-free membership, and bidirectional consistency of
the `rider.ride` back-references. -/
structure WInv (w : World) : Prop where
  rid_nodup : (w.riders.map RiderU.rid).Nodup
  did_nodup : (w.drivers.map DriverU.did).Nodup
  maxr : ∀ d ∈ w.drivers, 0 ≤ d.max_riders
  cap : ∀ d ∈ w.drivers, ∀ rd, d.ride = some rd →
      (rd.riders.length : ℤ) ≤ d.max_riders
  det : ∀ d ∈ w.drivers, ∀ rd, d.ride = some rd →
      rd.detour = if rd.direct_duration < rd.duration
                  then rd.duration - rd.direct_duration else 0
  wp : ∀ d ∈ w.drivers, ∀ rd, d.ride = some rd →
      ∀ r ∈ w.riders, r.rid ∈ rd.riders → r.workplace = d.workplace
  stops_eq : ∀ d ∈ w.drivers, ∀ rd, d.ride = some rd →
      rd.stops = rd.riders.map w.homeOf
  riders_nodup : ∀ d ∈ w.drivers, ∀ rd, d.ride = some rd → rd.riders.Nodup
  riders_exist : ∀ d ∈ w.drivers, ∀ rd, d.ride = some rd →
      ∀ i ∈ rd.riders, ∃ r ∈ w.riders, r.rid = i
  fwd : ∀ d ∈ w.drivers, ∀ rd, d.ride = some rd →
      ∀ r ∈ w.riders, r.rid ∈ rd.riders → r.ride = some d.did
  bwd : ∀ r ∈ w.riders, ∀ j, r.ride = some j →
      ∃ d ∈ w.drivers, d.did = j ∧ ∃ rd, d.ride = some rd ∧ r.rid ∈ rd.riders

/-- The invariant only looks at the rider and driver tables, not at the
`failed_attempts` log. -/
theorem inv_congr {w w' : World} (hr : w'.riders = w.riders)
    (hd : w'.drivers = w.drivers) (h : WInv w) : WInv w' := by
  have hh : ∀ j, w'.homeOf j = w.homeOf j := World.homeOf_congr hr
  refine ⟨?_, ?_, ?_, ?_, ?_, ?_, ?_, ?_, ?_, ?_, ?_⟩
  · rw [hr]; exact h.rid_nodup
  · rw [hd]; exact h.did_nodup
  · rw [hd]; exact h.maxr
  · rw [hd]; exact h.cap
  · rw [hd]; exact h.det
  · rw [hd, hr]; exact h.wp
  · rw [hd]
    intro d hdm rd hrd
    rw [h.stops_eq d hdm rd hrd]
    exact List.map_congr_left fun i _ => (hh i).symm
  · rw [hd]; exact h.riders_nodup
  · rw [hd, hr]; exact h.riders_exist
  · rw [hd, hr]; exact h.fwd
  · rw [hr, hd]; exact h.bwd

/-- Shape of a freshly created solo ride: no riders, no stops, duration
equal to the recorded direct duration, zero detour. -/
theorem createSoloRide_shape {srv : Server} {home workplace : Coord}
    {rd : RideData} (h : createSoloRide srv home workplace = some rd) :
    rd.riders = [] ∧ rd.stops = [] ∧ rd.duration = rd.direct_duration ∧
    rd.detour = 0 := by
  unfold createSoloRide at h
  cases hdr : calculate_direct_route srv home workplace with
  | none => rw [hdr] at h; cases h
  | some dr =>
    rw [hdr] at h
    have hrd : mkRide home workplace [] (fun _ => (0, 0))
        { distance := dr.distance, duration := dr.duration,
          waypoint_indices := [0, 1], leg_durations := [dr.duration],
          geometry := dr.geometry,
          matched_geometry := some dr.geometry } dr.duration = rd := by
      exact (Option.some.injEq _ _).mp h
    rw [← hrd]
    refine ⟨rfl, rfl, rfl, ?_⟩
    show (if dr.duration < dr.duration then dr.duration - dr.duration else 0)
      = 0
    rw [if_neg (lt_irrefl _)]

/-- Well-formed initial session states: fresh riders (no ride reference),
drivers with a non-negative seat capacity whose rides, when present, came
out of `Driver._create_solo_ride`, and duplicate-free object identities. -/
structure InitWorld (w : World) : Prop where
  rid_nodup : (w.riders.map RiderU.rid).Nodup
  did_nodup : (w.drivers.map DriverU.did).Nodup
  riders_free : ∀ r ∈ w.riders, r.ride = none
  maxr : ∀ d ∈ w.drivers, 0 ≤ d.max_riders
  solo : ∀ d ∈ w.drivers, ∀ rd, d.ride = some rd →
      ∃ srv, createSoloRide srv d.home d.workplace = some rd

/-- An initial state satisfies the inductive invariant. -/
theorem initWorld_inv {w : World} (h : InitWorld w) : WInv w := by
  have hsolo : ∀ d ∈ w.drivers, ∀ rd, d.ride = some rd →
      rd.riders = [] ∧ rd.stops = [] ∧ rd.duration = rd.direct_duration ∧
      rd.detour = 0 := by
    intro d hd rd hrd
    obtain ⟨srv, hs⟩ := h.solo d hd rd hrd
    exact createSoloRide_shape hs
  refine ⟨h.rid_nodup, h.did_nodup, h.maxr, ?_, ?_, ?_, ?_, ?_, ?_, ?_, ?_⟩
  · intro d hd rd hrd
    rw [(hsolo d hd rd hrd).1]
    simpa using h.maxr d hd
  · intro d hd rd hrd
    obtain ⟨-, -, hdur, hdet⟩ := hsolo d hd rd hrd
    rw [hdet, hdur, if_neg (lt_irrefl _)]
  · intro d hd rd hrd r hr hmem
    rw [(hsolo d hd rd hrd).1] at hmem
    cases hmem
  · intro d hd rd hrd
    rw [(hsolo d hd rd hrd).1, (hsolo d hd rd hrd).2.1]
    rfl
  · intro d hd rd hrd
    rw [(hsolo d hd rd hrd).1]
    exact List.nodup_nil
  · intro d hd rd hrd i hmem
    rw [(hsolo d hd rd hrd).1] at hmem
    cases hmem
  · intro d hd rd hrd r hr hmem
    rw [(hsolo d hd rd hrd).1] at hmem
    cases hmem
  · intro r hr j hj
    rw [h.riders_free r hr] at hj
    cases hj

/-- Session states reachable from a starting state by any sequence of
(successful or declined) add and remove calls, each possibly observing a
different oracle state. -/
inductive Reachable : World → World → Prop
  | refl (w : World) : Reachable w w
  | add (w₀ w : World) (srv : Server) (did rid : ℕ) :
      Reachable w₀ w → Reachable w₀ (addRiderToRide srv w did rid).1
  | remove (w₀ w : World) (srv : Server) (did rid : ℕ) :
      Reachable w₀ w → Reachable w₀ (removeRiderFromRide srv w did rid).1

/-! ### Field preservation of the reference updates -/

theorem updR_rid (is : List ℕ) (did : ℕ) (r : RiderU) :
    (if r.rid ∈ is then { r with ride := some did } else r).rid = r.rid := by
  split <;> rfl

theorem updR_home (is : List ℕ) (did : ℕ) (r : RiderU) :
    (if r.rid ∈ is then { r with ride := some did } else r).home = r.home := by
  split <;> rfl

theorem updR_workplace (is : List ℕ) (did : ℕ) (r : RiderU) :
    (if r.rid ∈ is then { r with ride := some did } else r).workplace =
      r.workplace := by
  split <;> rfl

theorem updR1_rid (i : ℕ) (v : Option ℕ) (r : RiderU) :
    (if r.rid = i then { r with ride := v } else r).rid = r.rid := by
  split <;> rfl

theorem updR1_workplace (i : ℕ) (v : Option ℕ) (r : RiderU) :
    (if r.rid = i then { r with ride := v } else r).workplace =
      r.workplace := by
  split <;> rfl

theorem updD_did (i : ℕ) (rd : RideData) (d : DriverU) :
    (if d.did = i then { d with ride := some rd } else d).did = d.did := by
  split <;> rfl

theorem updD_max (i : ℕ) (rd : RideData) (d : DriverU) :
    (if d.did = i then { d with ride := some rd } else d).max_riders =
      d.max_riders := by
  split <;> rfl

theorem updD_workplace (i : ℕ) (rd : RideData) (d : DriverU) :
    (if d.did = i then { d with ride := some rd } else d).workplace =
      d.workplace := by
  split <;> rfl

theorem map_rid_updR (l : List RiderU) (is : List ℕ) (did : ℕ) :
    ((l.map fun r => if r.rid ∈ is then { r with ride := some did } else r).map
      RiderU.rid) = l.map RiderU.rid := by
  rw [List.map_map]
  exact List.map_congr_left fun r _ => updR_rid is did r

theorem map_rid_updR1 (l : List RiderU) (i : ℕ) (v : Option ℕ) :
    ((l.map fun r => if r.rid = i then { r with ride := v } else r).map
      RiderU.rid) = l.map RiderU.rid := by
  rw [List.map_map]
  exact List.map_congr_left fun r _ => updR1_rid i v r

theorem map_did_updD (l : List DriverU) (i : ℕ) (rd : RideData) :
    ((l.map fun d => if d.did = i then { d with ride := some rd } else d).map
      DriverU.did) = l.map DriverU.did := by
  rw [List.map_map]
  exact List.map_congr_left fun d _ => updD_did i rd d

/-- A successful `add_rider_to_ride` preserves the invariant. -/
theorem winv_addRiderToRide (srv : Server) (w : World) (did rid : ℕ)
    (h : WInv w) : WInv (addRiderToRide srv w did rid).1 := by
  rcases addRiderToRide_spec srv w did rid with
    ⟨-, hra, hda⟩ |
    ⟨d0, r0, ride, nr0, hd0, hr0, hride, hwp0, hfree0, hcap0, hroute0, hdur0,
      heq⟩
  · exact inv_congr hra hda h
  rw [heq]
  dsimp only
  set nr := ride.riders ++ [rid] with hnr
  set ride' := updateRide srv ride nr w.homeOf nr0 ride.direct_duration
    with hride'
  set u : RiderU → RiderU :=
    fun r => if r.rid ∈ nr then { r with ride := some did } else r with hu
  set v : DriverU → DriverU :=
    fun d => if d.did = did then { d with ride := some ride' } else d with hv
  have hSr : ((w.setRidersRide nr did).setDriverRide did ride').riders =
      w.riders.map u := rfl
  have hSd : ((w.setRidersRide nr did).setDriverRide did ride').drivers =
      w.drivers.map v := rfl
  have hhome : ∀ j,
      ((w.setRidersRide nr did).setDriverRide did ride').homeOf j =
        w.homeOf j := by
    intro j
    rw [World.homeOf_setDriverRide, World.homeOf_setRidersRide]
  have hd0mem : d0 ∈ w.drivers := World.getDriver_mem hd0
  have hd0did : d0.did = did := World.getDriver_did hd0
  have hr0mem : r0 ∈ w.riders := World.getRider_mem hr0
  have hr0rid : r0.rid = rid := World.getRider_rid hr0
  have hnotin : rid ∉ ride.riders := by
    intro hmem
    have hfwd := h.fwd d0 hd0mem ride hride r0 hr0mem
      (by rw [hr0rid]; exact hmem)
    rw [hfree0] at hfwd
    cases hfwd
  have hdeq : ∀ d ∈ w.drivers, d.did = did → d = d0 := by
    intro d hdm hdd
    have h1 := World.getDriver_of_mem h.did_nodup hdm
    rw [hdd, hd0] at h1
    exact ((Option.some.injEq _ _).mp h1).symm
  have hreq : ∀ r ∈ w.riders, r.rid = rid → r = r0 := by
    intro r hrm hrr
    have h1 := World.getRider_of_mem h.rid_nodup hrm
    rw [hrr, hr0] at h1
    exact ((Option.some.injEq _ _).mp h1).symm
  have hur : ∀ r, (u r).rid = r.rid := fun r => updR_rid nr did r
  have huw : ∀ r, (u r).workplace = r.workplace :=
    fun r => updR_workplace nr did r
  have hvd : ∀ d, (v d).did = d.did := fun d => updD_did did ride' d
  have hvw : ∀ d, (v d).workplace = d.workplace :=
    fun d => updD_workplace did ride' d
  have hv_ride : ∀ d, d.did ≠ did → (v d).ride = d.ride := by
    intro d hdd
    rw [hv]
    dsimp only
    rw [if_neg hdd]
  have hv_ride' : (v d0).ride = some ride' := by
    rw [hv]
    dsimp only
    rw [if_pos hd0did]
  have hu_in : ∀ r, r.rid ∈ nr → u r = { r with ride := some did } := by
    intro r hr
    rw [hu]
    dsimp only
    rw [if_pos hr]
  have hu_out : ∀ r, r.rid ∉ nr → u r = r := by
    intro r hr
    rw [hu]
    dsimp only
    rw [if_neg hr]
  have hmem_nr : ∀ r ∈ w.riders, r.rid ∈ nr →
      r.rid ∈ ride.riders ∨ r = r0 := by
    intro r hrm hrn
    rcases List.mem_append.mp hrn with hl | hr
    · exact Or.inl hl
    · exact Or.inr (hreq r hrm (List.mem_singleton.mp hr))
  have hforbid : ∀ d ∈ w.drivers, d.did ≠ did → ∀ rd, d.ride = some rd →
      ∀ r ∈ w.riders, r.rid ∈ rd.riders → r.rid ∉ nr := by
    intro d hdm hdd rd hrd r hrm hmem hrn
    have hfw := h.fwd d hdm rd hrd r hrm hmem
    rcases hmem_nr r hrm hrn with hl | rfl
    · have hfw0 := h.fwd d0 hd0mem ride hride r hrm hl
      rw [hfw] at hfw0
      have : d.did = d0.did := (Option.some.injEq _ _).mp hfw0
      rw [hd0did] at this
      exact hdd this
    · rw [hfree0] at hfw
      cases hfw
  constructor
  · rw [hSr, map_rid_updR]
    exact h.rid_nodup
  · rw [hSd, map_did_updD]
    exact h.did_nodup
  · rw [hSd]
    intro d' hd'
    rcases List.mem_map.mp hd' with ⟨d, hdm, rfl⟩
    rw [updD_max]
    exact h.maxr d hdm
  · rw [hSd]
    intro d' hd' rd hrd
    rcases List.mem_map.mp hd' with ⟨d, hdm, rfl⟩
    rw [updD_max]
    by_cases hdd : d.did = did
    · have hd0' := hdeq d hdm hdd
      subst hd0'
      rw [hv_ride'] at hrd
      have : ride' = rd := (Option.some.injEq _ _).mp hrd
      subst this
      have hlen : (ride'.riders.length : ℤ) =
          (ride.riders.length : ℤ) + 1 := by
        show ((nr.length : ℤ) = _)
        rw [hnr]
        push_cast [List.length_append, List.length_singleton]
        ring
      rw [hlen]
      omega
    · rw [hv_ride d hdd] at hrd
      exact h.cap d hdm rd hrd
  · rw [hSd]
    intro d' hd' rd hrd
    rcases List.mem_map.mp hd' with ⟨d, hdm, rfl⟩
    by_cases hdd : d.did = did
    · have hd0' := hdeq d hdm hdd
      subst hd0'
      rw [hv_ride'] at hrd
      have : ride' = rd := (Option.some.injEq _ _).mp hrd
      subst this
      rfl
    · rw [hv_ride d hdd] at hrd
      exact h.det d hdm rd hrd
  · rw [hSd, hSr]
    intro d' hd' rd hrd r' hr' hmem
    rcases List.mem_map.mp hd' with ⟨d, hdm, rfl⟩
    rcases List.mem_map.mp hr' with ⟨r, hrm, rfl⟩
    rw [hur] at hmem
    rw [huw, hvw]
    by_cases hdd : d.did = did
    · have hd0' := hdeq d hdm hdd
      subst hd0'
      rw [hv_ride'] at hrd
      have : ride' = rd := (Option.some.injEq _ _).mp hrd
      subst this
      rcases hmem_nr r hrm hmem with hl | rfl
      · exact h.wp d hd0mem ride hride r hrm hl
      · exact hwp0
    · rw [hv_ride d hdd] at hrd
      exact h.wp d hdm rd hrd r hrm hmem
  · rw [hSd]
    intro d' hd' rd hrd
    rcases List.mem_map.mp hd' with ⟨d, hdm, rfl⟩
    by_cases hdd : d.did = did
    · have hd0' := hdeq d hdm hdd
      subst hd0'
      rw [hv_ride'] at hrd
      have : ride' = rd := (Option.some.injEq _ _).mp hrd
      subst this
      show ride'.stops = _
      have : ride'.stops = ride'.riders.map w.homeOf := rfl
      rw [this]
      exact List.map_congr_left fun i _ => (hhome i).symm
    · rw [hv_ride d hdd] at hrd
      rw [h.stops_eq d hdm rd hrd]
      exact List.map_congr_left fun i _ => (hhome i).symm
  · rw [hSd]
    intro d' hd' rd hrd
    rcases List.mem_map.mp hd' with ⟨d, hdm, rfl⟩
    by_cases hdd : d.did = did
    · have hd0' := hdeq d hdm hdd
      subst hd0'
      rw [hv_ride'] at hrd
      have : ride' = rd := (Option.some.injEq _ _).mp hrd
      subst this
      show nr.Nodup
      rw [hnr]
      refine List.Nodup.append (h.riders_nodup d hd0mem ride hride)
        (List.nodup_singleton rid) ?_
      intro a ha hb
      rw [List.mem_singleton.mp hb] at ha
      exact hnotin ha
    · rw [hv_ride d hdd] at hrd
      exact h.riders_nodup d hdm rd hrd
  · rw [hSd, hSr]
    intro d' hd' rd hrd i hmem
    rcases List.mem_map.mp hd' with ⟨d, hdm, rfl⟩
    have lift : (∃ r ∈ w.riders, r.rid = i) →
        ∃ r' ∈ w.riders.map u, r'.rid = i := by
      rintro ⟨r, hrm, hri⟩
      exact ⟨u r, List.mem_map_of_mem u hrm, by rw [hur]; exact hri⟩
    by_cases hdd : d.did = did
    · have hd0' := hdeq d hdm hdd
      subst hd0'
      rw [hv_ride'] at hrd
      have : ride' = rd := (Option.some.injEq _ _).mp hrd
      subst this
      have hmem' : i ∈ nr := hmem
      rcases List.mem_append.mp hmem' with hl | hr
      · exact lift (h.riders_exist d hd0mem ride hride i hl)
      · exact lift ⟨r0, hr0mem,
          hr0rid.trans (List.mem_singleton.mp hr).symm⟩
    · rw [hv_ride d hdd] at hrd
      exact lift (h.riders_exist d hdm rd hrd i hmem)
  · rw [hSd, hSr]
    intro d' hd' rd hrd r' hr' hmem
    rcases List.mem_map.mp hd' with ⟨d, hdm, rfl⟩
    rcases List.mem_map.mp hr' with ⟨r, hrm, rfl⟩
    rw [hur] at hmem
    rw [hvd]
    by_cases hdd : d.did = did
    · have hd0' := hdeq d hdm hdd
      subst hd0'
      rw [hv_ride'] at hrd
      have : ride' = rd := (Option.some.injEq _ _).mp hrd
      subst this
      have hin : r.rid ∈ nr := hmem
      rw [hu_in r hin, hd0did]
    · rw [hv_ride d hdd] at hrd
      have hout : r.rid ∉ nr := hforbid d hdm hdd rd hrd r hrm hmem
      rw [hu_out r hout]
      exact h.fwd d hdm rd hrd r hrm hmem
  · rw [hSr, hSd]
    intro r' hr' j hj
    rcases List.mem_map.mp hr' with ⟨r, hrm, rfl⟩
    by_cases hrin : r.rid ∈ nr
    · rw [hu_in r hrin] at hj
      have hjd : did = j := (Option.some.injEq _ _).mp hj
      refine ⟨v d0, List.mem_map_of_mem v hd0mem, ?_, ride', hv_ride', ?_⟩
      · rw [hvd, hd0did]; exact hjd
      · rw [hu_in r hrin]
        exact hrin
    · rw [hu_out r hrin] at hj
      obtain ⟨d, hdm, hdid, rd, hrd, hmem⟩ := h.bwd r hrm j hj
      by_cases hdd : d.did = did
      · exfalso
        have hd0' := hdeq d hdm hdd
        subst hd0'
        rw [hride] at hrd
        have : ride = rd := (Option.some.injEq _ _).mp hrd
        subst this
        exact hrin (List.mem_append_left _ hmem)
      · refine ⟨v d, List.mem_map_of_mem v hdm, ?_, rd, ?_, ?_⟩
        · rw [hvd]; exact hdid
        · rw [hv_ride d hdd]; exact hrd
        · rw [hu_out r hrin]; exact hmem

/-- A successful `remove_rider_from_ride` preserves the invariant. -/
theorem winv_removeRiderFromRide (srv : Server) (w : World) (did rid : ℕ)
    (h : WInv w) : WInv (removeRiderFromRide srv w did rid).1 := by
  rcases removeRiderFromRide_spec srv w did rid with
    ⟨-, heqw⟩ | ⟨d0, ride, nr0, hd0, hride, hmem0, heq, -⟩
  · rw [heqw]; exact h
  rw [heq]
  dsimp only
  set nr := ride.riders.filter (fun r => r != rid) with hnrdef
  set ride' := updateRide srv ride nr w.homeOf nr0 ride.direct_duration
    with hride'
  set u1 : RiderU → RiderU :=
    fun r => if r.rid = rid then { r with ride := none } else r with hu1
  set u2 : RiderU → RiderU :=
    fun r => if r.rid ∈ nr then { r with ride := some did } else r with hu2
  set v : DriverU → DriverU :=
    fun d => if d.did = did then { d with ride := some ride' } else d with hv
  have hSr : (((w.setRiderRide rid none).setRidersRide nr did).setDriverRide
      did ride').riders = w.riders.map (fun r => u2 (u1 r)) := by
    show ((w.riders.map u1).map u2) = _
    rw [List.map_map]
    rfl
  have hSd : (((w.setRiderRide rid none).setRidersRide nr did).setDriverRide
      did ride').drivers = w.drivers.map v := rfl
  have hhome : ∀ j, (((w.setRiderRide rid none).setRidersRide nr
      did).setDriverRide did ride').homeOf j = w.homeOf j := by
    intro j
    rw [World.homeOf_setDriverRide, World.homeOf_setRidersRide,
      World.homeOf_setRiderRide]
  have hd0mem : d0 ∈ w.drivers := World.getDriver_mem hd0
  have hd0did : d0.did = did := World.getDriver_did hd0
  have hridnr : rid ∉ nr := by
    intro hmem
    have := (List.mem_filter.mp hmem).2
    simp at this
  have hsub : ∀ i ∈ nr, i ∈ ride.riders :=
    fun i hi => (List.mem_filter.mp hi).1
  have hkeep : ∀ i, i ∈ ride.riders → i ≠ rid → i ∈ nr := by
    intro i hi hne
    exact List.mem_filter.mpr ⟨hi, by simpa using hne⟩
  have hdeq : ∀ d ∈ w.drivers, d.did = did → d = d0 := by
    intro d hdm hdd
    have h1 := World.getDriver_of_mem h.did_nodup hdm
    rw [hdd, hd0] at h1
    exact ((Option.some.injEq _ _).mp h1).symm
  have hc_rid : ∀ r, (u2 (u1 r)).rid = r.rid := by
    intro r
    rw [updR_rid, updR1_rid]
  have hc_workplace : ∀ r, (u2 (u1 r)).workplace = r.workplace := by
    intro r
    rw [updR_workplace, updR1_workplace]
  have hvd : ∀ d, (v d).did = d.did := fun d => updD_did did ride' d
  have hvw : ∀ d, (v d).workplace = d.workplace :=
    fun d => updD_workplace did ride' d
  have hv_ride : ∀ d, d.did ≠ did → (v d).ride = d.ride := by
    intro d hdd
    rw [hv]; dsimp only; rw [if_neg hdd]
  have hv_ride' : (v d0).ride = some ride' := by
    rw [hv]; dsimp only; rw [if_pos hd0did]
  have hc_removed : ∀ r, r.rid = rid → u2 (u1 r) = { r with ride := none } := by
    intro r hr
    rw [hu1]; dsimp only; rw [if_pos hr]
    rw [hu2]; dsimp only
    rw [if_neg]
    show ¬(r.rid ∈ nr)
    rw [hr]; exact hridnr
  have hc_in : ∀ r, r.rid ∈ nr → u2 (u1 r) = { r with ride := some did } := by
    intro r hr
    have hne : ¬(r.rid = rid) := fun heq => hridnr (heq ▸ hr)
    rw [hu1]; dsimp only; rw [if_neg hne]
    rw [hu2]; dsimp only; rw [if_pos hr]
  have hc_out : ∀ r, r.rid ≠ rid → r.rid ∉ nr → u2 (u1 r) = r := by
    intro r h1 h2
    rw [hu1]; dsimp only; rw [if_neg h1]
    rw [hu2]; dsimp only; rw [if_neg h2]
  have hforbid : ∀ d ∈ w.drivers, d.did ≠ did → ∀ rd, d.ride = some rd →
      ∀ r ∈ w.riders, r.rid ∈ rd.riders → r.rid ≠ rid ∧ r.rid ∉ nr := by
    intro d hdm hdd rd hrd r hrm hmem
    have hfw := h.fwd d hdm rd hrd r hrm hmem
    have hcontra : r.rid ∈ ride.riders → False := by
      intro hl
      have hfw0 := h.fwd d0 hd0mem ride hride r hrm hl
      rw [hfw] at hfw0
      have : d.did = d0.did := (Option.some.injEq _ _).mp hfw0
      rw [hd0did] at this
      exact hdd this
    constructor
    · intro hr
      exact hcontra (hr ▸ hmem0)
    · intro hr
      exact hcontra (hsub _ hr)
  constructor
  · rw [hSr]
    have : (w.riders.map fun r => u2 (u1 r)).map RiderU.rid =
        w.riders.map RiderU.rid := by
      rw [List.map_map]
      exact List.map_congr_left fun r _ => hc_rid r
    rw [this]
    exact h.rid_nodup
  · rw [hSd, map_did_updD]
    exact h.did_nodup
  · rw [hSd]
    intro d' hd'
    rcases List.mem_map.mp hd' with ⟨d, hdm, rfl⟩
    rw [updD_max]
    exact h.maxr d hdm
  · rw [hSd]
    intro d' hd' rd hrd
    rcases List.mem_map.mp hd' with ⟨d, hdm, rfl⟩
    rw [updD_max]
    by_cases hdd : d.did = did
    · have hd0' := hdeq d hdm hdd
      subst hd0'
      rw [hv_ride'] at hrd
      have : ride' = rd := (Option.some.injEq _ _).mp hrd
      subst this
      have hlen : (ride'.riders.length : ℤ) ≤ (ride.riders.length : ℤ) := by
        show ((nr.length : ℤ) ≤ _)
        exact_mod_cast List.length_filter_le _ _
      calc (ride'.riders.length : ℤ) ≤ (ride.riders.length : ℤ) := hlen
        _ ≤ d.max_riders := h.cap d hd0mem ride hride
    · rw [hv_ride d hdd] at hrd
      exact h.cap d hdm rd hrd
  · rw [hSd]
    intro d' hd' rd hrd
    rcases List.mem_map.mp hd' with ⟨d, hdm, rfl⟩
    by_cases hdd : d.did = did
    · have hd0' := hdeq d hdm hdd
      subst hd0'
      rw [hv_ride'] at hrd
      have : ride' = rd := (Option.some.injEq _ _).mp hrd
      subst this
      rfl
    · rw [hv_ride d hdd] at hrd
      exact h.det d hdm rd hrd
  · rw [hSd, hSr]
    intro d' hd' rd hrd r' hr' hmem
    rcases List.mem_map.mp hd' with ⟨d, hdm, rfl⟩
    rcases List.mem_map.mp hr' with ⟨r, hrm, rfl⟩
    rw [hc_rid] at hmem
    rw [hc_workplace, hvw]
    by_cases hdd : d.did = did
    · have hd0' := hdeq d hdm hdd
      subst hd0'
      rw [hv_ride'] at hrd
      have : ride' = rd := (Option.some.injEq _ _).mp hrd
      subst this
      exact h.wp d hd0mem ride hride r hrm (hsub _ hmem)
    · rw [hv_ride d hdd] at hrd
      exact h.wp d hdm rd hrd r hrm hmem
  · rw [hSd]
    intro d' hd' rd hrd
    rcases List.mem_map.mp hd' with ⟨d, hdm, rfl⟩
    by_cases hdd : d.did = did
    · have hd0' := hdeq d hdm hdd
      subst hd0'
      rw [hv_ride'] at hrd
      have : ride' = rd := (Option.some.injEq _ _).mp hrd
      subst this
      show ride'.stops = _
      have : ride'.stops = ride'.riders.map w.homeOf := rfl
      rw [this]
      exact List.map_congr_left fun i _ => (hhome i).symm
    · rw [hv_ride d hdd] at hrd
      rw [h.stops_eq d hdm rd hrd]
      exact List.map_congr_left fun i _ => (hhome i).symm
  · rw [hSd]
    intro d' hd' rd hrd
    rcases List.mem_map.mp hd' with ⟨d, hdm, rfl⟩
    by_cases hdd : d.did = did
    · have hd0' := hdeq d hdm hdd
      subst hd0'
      rw [hv_ride'] at hrd
      have : ride' = rd := (Option.some.injEq _ _).mp hrd
      subst this
      show nr.Nodup
      exact (h.riders_nodup d hd0mem ride hride).filter _
    · rw [hv_ride d hdd] at hrd
      exact h.riders_nodup d hdm rd hrd
  · rw [hSd, hSr]
    intro d' hd' rd hrd i hmem
    rcases List.mem_map.mp hd' with ⟨d, hdm, rfl⟩
    have lift : (∃ r ∈ w.riders, r.rid = i) →
        ∃ r' ∈ w.riders.map (fun r => u2 (u1 r)), r'.rid = i := by
      rintro ⟨r, hrm, hri⟩
      exact ⟨u2 (u1 r), List.mem_map_of_mem _ hrm, by rw [hc_rid]; exact hri⟩
    by_cases hdd : d.did = did
    · have hd0' := hdeq d hdm hdd
      subst hd0'
      rw [hv_ride'] at hrd
      have : ride' = rd := (Option.some.injEq _ _).mp hrd
      subst this
      exact lift (h.riders_exist d hd0mem ride hride i (hsub _ hmem))
    · rw [hv_ride d hdd] at hrd
      exact lift (h.riders_exist d hdm rd hrd i hmem)
  · rw [hSd, hSr]
    intro d' hd' rd hrd r' hr' hmem
    rcases List.mem_map.mp hd' with ⟨d, hdm, rfl⟩
    rcases List.mem_map.mp hr' with ⟨r, hrm, rfl⟩
    rw [hc_rid] at hmem
    rw [hvd]
    by_cases hdd : d.did = did
    · have hd0' := hdeq d hdm hdd
      subst hd0'
      rw [hv_ride'] at hrd
      have : ride' = rd := (Option.some.injEq _ _).mp hrd
      subst this
      have hin : r.rid ∈ nr := hmem
      rw [hc_in r hin, hd0did]
    · rw [hv_ride d hdd] at hrd
      obtain ⟨hne, hout⟩ := hforbid d hdm hdd rd hrd r hrm hmem
      rw [hc_out r hne hout]
      exact h.fwd d hdm rd hrd r hrm hmem
  · rw [hSr, hSd]
    intro r' hr' j hj
    rcases List.mem_map.mp hr' with ⟨r, hrm, rfl⟩
    by_cases hrin : r.rid ∈ nr
    · rw [hc_in r hrin] at hj
      have hjd : did = j := by
        have : ({ r with ride := some did } : RiderU).ride = some j := hj
        exact (Option.some.injEq _ _).mp this
      refine ⟨v d0, List.mem_map_of_mem v hd0mem, ?_, ride', hv_ride', ?_⟩
      · rw [hvd, hd0did]; exact hjd
      · rw [hc_in r hrin]
        exact hrin
    · by_cases hrr : r.rid = rid
      · rw [hc_removed r hrr] at hj
        cases hj
      · rw [hc_out r hrr hrin] at hj
        obtain ⟨d, hdm, hdid, rd, hrd, hmem⟩ := h.bwd r hrm j hj
        by_cases hdd : d.did = did
        · exfalso
          have hd0' := hdeq d hdm hdd
          subst hd0'
          rw [hride] at hrd
          have : ride = rd := (Option.some.injEq _ _).mp hrd
          subst this
          exact hrin (hkeep _ hmem hrr)
        · refine ⟨v d, List.mem_map_of_mem v hdm, ?_, rd, ?_, ?_⟩
          · rw [hvd]; exact hdid
          · rw [hv_ride d hdd]; exact hrd
          · rw [hc_out r hrr hrin]; exact hmem

/-- Every state reachable from a well-formed initial state satisfies the
invariant. -/
theorem winv_reachable {w₀ w : World} (hinit : InitWorld w₀)
    (hreach : Reachable w₀ w) : WInv w := by
  induction hreach with
  | refl => exact initWorld_inv hinit
  | add wb srv did rid hr ih => exact winv_addRiderToRide srv wb did rid ih
  | remove wb srv did rid hr ih =>
    exact winv_removeRiderFromRide srv wb did rid ih

/-! ### Concrete fixtures used by witnesses and counterexamples -/

/-- A stub oracle: direct routes of 10 km / 20 min, optimized trips of
15 km / 45 min over three waypoints, no road-snapping matches. -/
def srvA : Server :=
  { directions := fun _ _ =>
      some { distance := 10000, duration := 1200, geometry := [(9, 48)] },
    optimizedTrips := fun _ =>
      some { geometry := [(9, 48)], distance := 15000, duration := 2700,
             waypoints := [0, 1, 2], legs := [1300, 1400] },
    matchings := fun _ => none }

/-- A stub oracle whose every request fails. -/
def srvDown : Server :=
  { directions := fun _ _ => none,
    optimizedTrips := fun _ => none,
    matchings := fun _ => none }

/-- A stub oracle with working direct routes but failing optimized trips. -/
def srvNoTrip : Server :=
  { directions := fun _ _ =>
      some { distance := 10000, duration := 1200, geometry := [(9, 48)] },
    optimizedTrips := fun _ => none,
    matchings := fun _ => none }

/-- A stub oracle whose optimized trips take 51 minutes, one minute over the
20 + 30 budget of `drv0`. -/
def srvOver : Server :=
  { directions := fun _ _ =>
      some { distance := 10000, duration := 1200, geometry := [(9, 48)] },
    optimizedTrips := fun _ =>
      some { geometry := [(9, 48)], distance := 15000, duration := 3060,
             waypoints := [0, 1, 2], legs := [1500, 1560] },
    matchings := fun _ => none }

/-- A stub oracle whose optimized trips take exactly 50 minutes, equal to
the 20 + 30 budget of `drv0`. -/
def srvAt : Server :=
  { directions := fun _ _ =>
      some { distance := 10000, duration := 1200, geometry := [(9, 48)] },
    optimizedTrips := fun _ =>
      some { geometry := [(9, 48)], distance := 15000, duration := 3000,
             waypoints := [0, 1, 2], legs := [1500, 1500] },
    matchings := fun _ => none }

/-- A stub oracle whose direct routes take 30 minutes (slower than the
20 minutes recorded at driver construction). -/
def srvSlow : Server :=
  { directions := fun _ _ =>
      some { distance := 12000, duration := 1800, geometry := [(9, 48)] },
    optimizedTrips := fun _ => none,
    matchings := fun _ => none }

/-- A stub oracle whose direct route carries the single GeoJSON coordinate
(lon 7, lat 50). -/
def srvGeo : Server :=
  { directions := fun _ _ =>
      some { distance := 12000, duration := 1800, geometry := [(7, 50)] },
    optimizedTrips := fun _ => none,
    matchings := fun _ => none }

/-- A driver constructed against `srvA`: workplace (50, 10), detour budget
30 minutes, two seats, solo ride of 20 minutes. -/
def drv0 : DriverU := driverInit srvA 0 "Dana" (48, 9) (50, 10) "Plant" 30 2

/-- A rider sharing `drv0`'s workplace, without a ride. -/
def rdr1 : RiderU :=
  riderInit srvA 1 "Riley" (481/10, 91/10) (50, 10) "Plant"

/-- A rider whose workplace (0, 0) differs from `drv0`'s. -/
def rdr2 : RiderU := riderInit srvA 2 "Robin" (482/10, 92/10) (0, 0) "Other"

/-- A session holding `drv0` with its solo ride and the two riders. -/
def w0 : World :=
  { riders := [rdr1, rdr2], drivers := [drv0], failed_attempts := [] }

/-- The session after `rdr1` was successfully added to `drv0`'s ride. -/
def w1 : World := (addRiderToRide srvA w0 0 1).1

/-- `w0` is a well-formed initial state. -/
theorem initWorld_w0 : InitWorld w0 := by
  refine ⟨by decide, by decide, by decide, by decide, ?_⟩
  intro d hd rd hrd
  have hdd : d = drv0 := by
    have : w0.drivers = [drv0] := rfl
    rw [this] at hd
    exact List.mem_singleton.mp hd
  subst hdd
  exact ⟨srvA, hrd⟩

/-! ### Claim theorems -/

/-- C1: every `add_rider_to_ride` or `remove_rider_from_ride` call that
returns failure leaves the Ride — rider list, route, distance, duration,
detour, waypoint order, leg durations, geometry, all held in the driver
table — and every user's current-ride reference exactly as before; only the
manager's `failed_attempts` log can grow.  Both operations are total Lean
functions, mirroring the blanket `except` clauses that keep any exception
from reaching the caller. -/
theorem decline_leaves_state_unchanged (srv : Server) (w : World)
    (did rid : ℕ) :
    ((addRiderToRide srv w did rid).2 = false →
      (addRiderToRide srv w did rid).1.riders = w.riders ∧
      (addRiderToRide srv w did rid).1.drivers = w.drivers) ∧
    ((removeRiderFromRide srv w did rid).2 = false →
      (removeRiderFromRide srv w did rid).1 = w) := by
  constructor
  · intro hfail
    rcases addRiderToRide_spec srv w did rid with ⟨-, hra, hda⟩ |
      ⟨d, r, ride, nr, -, -, -, -, -, -, -, -, heq⟩
    · exact ⟨hra, hda⟩
    · rw [heq] at hfail
      simp at hfail
  · intro hfail
    rcases removeRiderFromRide_spec srv w did rid with ⟨-, hw⟩ |
      ⟨d, ride, nr, -, -, -, heq, -⟩
    · exact hw
    · rw [heq] at hfail
      simp at hfail

/-- Witness for C1: against a dead oracle, adding the workplace-mismatched
rider 2 and removing the unassigned rider 2 both fail and leave the session
unchanged. -/
theorem decline_leaves_state_unchanged_witness :
    (addRiderToRide srvDown w0 0 2).2 = false ∧
    (addRiderToRide srvDown w0 0 2).1.riders = w0.riders ∧
    (addRiderToRide srvDown w0 0 2).1.drivers = w0.drivers ∧
    (removeRiderFromRide srvDown w0 0 2).2 = false ∧
    (removeRiderFromRide srvDown w0 0 2).1 = w0 := by
  have h := decline_leaves_state_unchanged srvDown w0 0 2
  have h1 : (addRiderToRide srvDown w0 0 2).2 = false := by decide
  have h2 : (removeRiderFromRide srvDown w0 0 2).2 = false := by decide
  exact ⟨h1, (h.1 h1).1, (h.1 h1).2, h2, h.2 h2⟩

/-- C5 (code bug): when the oracle cannot produce the solo route,
`Driver.__init__` still completes — the `except Exception` clause catches
the very `ValueError` the `try` block raised — and the constructed driver's
`ride` is `None`, contradicting the construct-fully-or-fail discipline the
spec states. -/
theorem driver_construction_completes_without_ride :
    (driverInit srvDown 3 "Dany" (48, 9) (50, 10) "Plant" 30 2).ride = none ∧
    (driverInit srvDown 3 "Dany" (48, 9) (50, 10) "Plant" 30 2).name =
      "Dany" ∧
    (driverInit srvDown 3 "Dany" (48, 9) (50, 10) "Plant" 30 2).max_riders =
      2 := by
  exact ⟨rfl, rfl, rfl⟩

/-- C4: once the first three checks pass and the oracle returns a route, a
new duration exactly equal to `direct_duration + max_detour_minutes` is
accepted, while any strictly greater duration is declined. -/
theorem add_detour_boundary (srv : Server) (w : World) (did rid : ℕ)
    (d : DriverU) (r : RiderU) (ride : RideData) (new_route : RouteDict)
    (hd : w.getDriver did = some d) (hr : w.getRider rid = some r)
    (hride : d.ride = some ride) (hwp : r.workplace = d.workplace)
    (hfree : r.ride = none) (hcap : (ride.riders.length : ℤ) < d.max_riders)
    (hroute : calculate_optimized_route srv
      (ride.start :: ((ride.riders ++ [rid]).map w.homeOf ++
        [ride.destination])) = some new_route) :
    (new_route.duration = ride.direct_duration + d.max_detour_minutes →
      (addRiderToRide srv w did rid).2 = true) ∧
    (ride.direct_duration + d.max_detour_minutes < new_route.duration →
      (addRiderToRide srv w did rid).2 = false) := by
  unfold addRiderToRide
  simp only [hd, hr, hride]
  rw [if_neg (fun hne => hne hwp),
    if_neg (by rw [hfree]; simp),
    if_neg (not_le.mpr hcap)]
  try dsimp only
  rw [hroute]
  try dsimp only
  constructor
  · intro heq
    rw [if_neg (by rw [heq]; exact lt_irrefl _)]
  · intro hlt
    rw [if_pos hlt]

/-- An empty route dictionary, used only as a `getD` fallback in fixtures. -/
def emptyRoute : RouteDict :=
  { distance := 0, duration := 0, waypoint_indices := [], leg_durations := [],
    geometry := [], matched_geometry := none }

/-- Fallback ride for `getD` in fixtures. -/
def junkRide : RideData :=
  mkRide (0, 0) (0, 0) [] (fun _ => (0, 0)) emptyRoute 0

/-- The solo ride `drv0` owns after construction against `srvA`. -/
def soloRide0 : RideData := drv0.ride.getD junkRide

/-- The optimized route `srvAt` returns for adding rider 1 to `drv0`. -/
def optAt : RouteDict :=
  (calculate_optimized_route srvAt (soloRide0.start ::
    ((soloRide0.riders ++ [1]).map w0.homeOf ++
      [soloRide0.destination]))).getD emptyRoute

/-- The optimized route `srvOver` returns for adding rider 1 to `drv0`. -/
def optOver : RouteDict :=
  (calculate_optimized_route srvOver (soloRide0.start ::
    ((soloRide0.riders ++ [1]).map w0.homeOf ++
      [soloRide0.destination]))).getD emptyRoute

unseal Rat.mul Rat.add Rat.sub Rat.inv in
/-- Witness for C4: a 50-minute route exactly meets drv0's 20 + 30 budget
and is accepted; a 51-minute route is declined. -/
theorem add_detour_boundary_witness :
    (addRiderToRide srvAt w0 0 1).2 = true ∧
    (addRiderToRide srvOver w0 0 1).2 = false := by
  constructor
  · exact (add_detour_boundary srvAt w0 0 1 drv0 rdr1 soloRide0 optAt
      (by decide) (by decide) (by decide) (by decide) (by decide) (by decide)
      (by decide)).1 (by decide)
  · exact (add_detour_boundary srvOver w0 0 1 drv0 rdr1 soloRide0 optOver
      (by decide) (by decide) (by decide) (by decide) (by decide) (by decide)
      (by decide)).2 (by decide)

unseal Rat.mul Rat.add Rat.sub Rat.inv in
/-- C6 counterexample: against `drv0` and rider 1 (all three earlier checks
pass), a failed optimized-route query (`srvNoTrip`) and a detour-budget
violation (`srvOver`, 51 > 50 minutes) are both recorded with the very same
"exceeds max detour" reason — a route failure is not reported distinctly
from a budget violation. -/
theorem route_failure_reason_merged :
    (addRiderToRide srvNoTrip w0 0 1).2 = false ∧
    (addRiderToRide srvOver w0 0 1).2 = false ∧
    (addRiderToRide srvNoTrip w0 0 1).1.failed_attempts =
      [Reason.exceedsMaxDetour] ∧
    (addRiderToRide srvOver w0 0 1).1.failed_attempts =
      [Reason.exceedsMaxDetour] := by
  decide

/-- C6 amended: the checks run in the order workplace mismatch,
already-assigned, capacity, route/detour, the first failing check
determining the reported reason; the first three causes carry pairwise
distinct reasons, but a failed optimized-route query and a detour-budget
violation are reported with one and the same "exceeds max detour" reason. -/
theorem add_validation_order (srv : Server) (w : World) (did rid : ℕ)
    (d : DriverU) (r : RiderU) (ride : RideData)
    (hd : w.getDriver did = some d) (hr : w.getRider rid = some r)
    (hride : d.ride = some ride) :
    (r.workplace ≠ d.workplace →
      addRiderToRide srv w did rid =
        (w.logFail .workplaceMismatch, false)) ∧
    (r.workplace = d.workplace → r.ride.isSome = true →
      addRiderToRide srv w did rid = (w.logFail .alreadyHasRide, false)) ∧
    (r.workplace = d.workplace → r.ride = none →
      d.max_riders ≤ (ride.riders.length : ℤ) →
      addRiderToRide srv w did rid = (w.logFail .rideIsFull, false)) ∧
    (r.workplace = d.workplace → r.ride = none →
      (ride.riders.length : ℤ) < d.max_riders →
      calculate_optimized_route srv (ride.start ::
        ((ride.riders ++ [rid]).map w.homeOf ++ [ride.destination])) = none →
      addRiderToRide srv w did rid = (w.logFail .exceedsMaxDetour, false)) ∧
    (∀ new_route, r.workplace = d.workplace → r.ride = none →
      (ride.riders.length : ℤ) < d.max_riders →
      calculate_optimized_route srv (ride.start ::
        ((ride.riders ++ [rid]).map w.homeOf ++ [ride.destination])) =
          some new_route →
      ride.direct_duration + d.max_detour_minutes < new_route.duration →
      addRiderToRide srv w did rid = (w.logFail .exceedsMaxDetour, false)) ∧
    (Reason.workplaceMismatch ≠ Reason.alreadyHasRide ∧
     Reason.workplaceMismatch ≠ Reason.rideIsFull ∧
     Reason.alreadyHasRide ≠ Reason.rideIsFull) := by
  unfold addRiderToRide
  simp only [hd, hr, hride]
  refine ⟨?_, ?_, ?_, ?_, ?_, by decide, by decide, by decide⟩
  · intro hne
    rw [if_pos hne]
  · intro hwp hsome
    rw [if_neg (fun hne => hne hwp), if_pos hsome]
  · intro hwp hnone hcap
    rw [if_neg (fun hne => hne hwp), if_neg (by rw [hnone]; simp),
      if_pos hcap]
  · intro hwp hnone hcap hq
    rw [if_neg (fun hne => hne hwp), if_neg (by rw [hnone]; simp),
      if_neg (not_le.mpr hcap)]
    try dsimp only
    rw [hq]
  · intro new_route hwp hnone hcap hq hdur
    rw [if_neg (fun hne => hne hwp), if_neg (by rw [hnone]; simp),
      if_neg (not_le.mpr hcap)]
    try dsimp only
    rw [hq]
    try dsimp only
    rw [if_pos hdur]

unseal Rat.mul Rat.add Rat.sub Rat.inv in
/-- Witness for the amended C6: a workplace mismatch is recorded with its
own reason, and a failed optimized-route query with the merged
"exceeds max detour" reason. -/
theorem add_validation_order_witness :
    addRiderToRide srvA w0 0 2 = (w0.logFail .workplaceMismatch, false) ∧
    addRiderToRide srvNoTrip w0 0 1 =
      (w0.logFail .exceedsMaxDetour, false) := by
  constructor
  · exact (add_validation_order srvA w0 0 2 drv0 rdr2 soloRide0
      (by decide) (by decide) (by decide)).1 (by decide)
  · exact (add_validation_order srvNoTrip w0 0 1 drv0 rdr1 soloRide0
      (by decide) (by decide) (by decide)).2.2.2.1 (by decide) (by decide)
      (by decide) (by decide)

/-- C7: the matching score always lies in [0, 1], and whenever the
candidate's workplace mismatches or the candidate already has a ride the
score is 0 and control never reaches the speculative optimized-route
request, for every oracle state and every behaviour of `math.sqrt`. -/
theorem score_range_and_ineligible (srv : Server) (sqrtFn : ℚ → ℚ)
    (homes : ℕ → Coord) (driver : DriverU) (rider : RiderU) :
    0 ≤ (calculate_matching_score srv sqrtFn homes driver rider).score ∧
    (calculate_matching_score srv sqrtFn homes driver rider).score ≤ 1 ∧
    (rider.workplace ≠ driver.workplace ∨ rider.ride.isSome = true →
      calculate_matching_score srv sqrtFn homes driver rider =
        { score := 0, queried := false }) := by
  unfold calculate_matching_score
  by_cases hin : rider.workplace ≠ driver.workplace ∨ rider.ride.isSome = true
  · rw [if_pos hin]
    exact ⟨le_refl 0, zero_le_one, fun _ => rfl⟩
  · rw [if_neg hin]
    cases hdr : driver.ride with
    | none => exact ⟨le_refl 0, zero_le_one, fun hcon => absurd hcon hin⟩
    | some ride =>
      dsimp only
      cases hq : calculate_optimized_route srv (ride.start ::
          ((ride.riders.map homes ++ [rider.home]) ++ [ride.destination])) with
      | none => exact ⟨le_refl 0, zero_le_one, fun hcon => absurd hcon hin⟩
      | some new_route =>
        dsimp only
        by_cases hdur : ride.direct_duration + driver.max_detour_minutes <
            new_route.duration
        · rw [if_pos hdur]
          exact ⟨le_refl 0, zero_le_one, fun hcon => absurd hcon hin⟩
        · rw [if_neg hdur]
          refine ⟨le_min (le_max_right _ _) zero_le_one, min_le_right _ _,
            fun hcon => absurd hcon hin⟩

/-- Witness for C7: the workplace-mismatched rider 2 scores 0 against
`drv0` with no oracle request, and the score bounds hold there. -/
theorem score_range_and_ineligible_witness :
    0 ≤ (calculate_matching_score srvA (fun q => q) w0.homeOf drv0
      rdr2).score ∧
    (calculate_matching_score srvA (fun q => q) w0.homeOf drv0
      rdr2).score ≤ 1 ∧
    calculate_matching_score srvA (fun q => q) w0.homeOf drv0 rdr2 =
      { score := 0, queried := false } := by
  have h := score_range_and_ineligible srvA (fun q => q) w0.homeOf drv0 rdr2
  exact ⟨h.1, h.2.1, h.2.2 (Or.inl (by decide))⟩

theorem World.getDriver_setDriverRide (w : World) (i : ℕ) (rd : RideData)
    (j : ℕ) :
    (w.setDriverRide i rd).getDriver j =
      (w.getDriver j).map
        (fun d => if d.did = i then { d with ride := some rd } else d) := by
  unfold World.getDriver World.setDriverRide
  rw [List.find?_map]
  have hp : ((fun x : DriverU => x.did == j) ∘
      fun d => if d.did = i then { d with ride := some rd } else d) =
      fun d : DriverU => d.did == j := by
    funext d; by_cases h : d.did = i <;> simp [Function.comp, h]
  rw [hp]

theorem match_route_to_roads_congr {srv srv' : Server}
    (h : srv'.matchings = srv.matchings) (c : List Coord) :
    match_route_to_roads srv' c = match_route_to_roads srv c := by
  unfold match_route_to_roads
  rw [h]

theorem updateRide_congr {srv srv' : Server}
    (h : srv'.matchings = srv.matchings) (r : RideData) (l : List ℕ)
    (f : ℕ → Coord) (rt : RouteDict) (dd : ℚ) :
    updateRide srv' r l f rt dd = updateRide srv r l f rt dd := by
  unfold updateRide
  rw [match_route_to_roads_congr h]

theorem match_route_to_roads_none {srv : Server}
    (hm : srv.matchings = fun _ => none) (c : List Coord) :
    match_route_to_roads srv c = none := by
  unfold match_route_to_roads
  rw [hm]
  split <;> rfl

/-- Removing the sole rider of a ride commits exactly the direct-route
recomputation the source performs, with the synthesized two-point route
dictionary. -/
theorem remove_sole_rider_eq (srv : Server) (w : World) (did rid : ℕ)
    (d : DriverU) (r : RiderU) (ride : RideData) (dr : DirectRouteResult)
    (hd : w.getDriver did = some d) (hr : w.getRider rid = some r)
    (hride : d.ride = some ride) (hsole : ride.riders = [rid])
    (hdirect : calculate_direct_route srv ride.start ride.destination =
      some dr) :
    removeRiderFromRide srv w did rid =
      (((w.setRiderRide rid none).setRidersRide [] did).setDriverRide did
        (updateRide srv ride [] w.homeOf
          { distance := dr.distance, duration := dr.duration,
            waypoint_indices := [0, 1], leg_durations := [dr.duration],
            geometry := dr.geometry, matched_geometry := some dr.geometry }
          ride.direct_duration), true) := by
  unfold removeRiderFromRide
  simp only [hd, hr, hride, hsole]
  rw [if_pos (List.mem_singleton_self rid)]
  have hfil : List.filter (fun x => x != rid) [rid] = [] := by simp
  rw [hfil]
  try dsimp only
  rw [if_pos (by simp)]
  rw [hdirect]

/-- C8 amended: removing the sole rider, when the direct-route query
succeeds, yields a ride with no riders, `waypoint_order = [0, 1]`, exactly
one leg duration (the fresh direct duration), and
`detour = max(fresh_direct_duration − recorded direct_duration, 0)` — zero
exactly when the fresh direct route is no slower than the one recorded at
construction; the recomputation consults only the directions and
road-matching oracles, never the optimized-trips oracle. -/
theorem remove_sole_rider_direct (srv : Server) (w : World) (did rid : ℕ)
    (d : DriverU) (r : RiderU) (ride : RideData) (dr : DirectRouteResult)
    (hd : w.getDriver did = some d) (hr : w.getRider rid = some r)
    (hride : d.ride = some ride) (hsole : ride.riders = [rid])
    (hdirect : calculate_direct_route srv ride.start ride.destination =
      some dr) :
    (removeRiderFromRide srv w did rid).2 = true ∧
    (∃ ride', (removeRiderFromRide srv w did rid).1.getDriver did =
        some { d with ride := some ride' } ∧
      ride'.riders = [] ∧ ride'.waypoint_order = [0, 1] ∧
      ride'.leg_durations = [dr.duration] ∧
      ride'.detour = (if ride.direct_duration < dr.duration
                      then dr.duration - ride.direct_duration else 0)) ∧
    (∀ srv' : Server, srv'.directions = srv.directions →
      srv'.matchings = srv.matchings →
      removeRiderFromRide srv' w did rid =
        removeRiderFromRide srv w did rid) := by
  have heq := remove_sole_rider_eq srv w did rid d r ride dr hd hr hride
    hsole hdirect
  refine ⟨by rw [heq], ⟨updateRide srv ride [] w.homeOf
      { distance := dr.distance, duration := dr.duration,
        waypoint_indices := [0, 1], leg_durations := [dr.duration],
        geometry := dr.geometry, matched_geometry := some dr.geometry }
      ride.direct_duration, ?_, rfl, rfl, rfl, rfl⟩, ?_⟩
  · rw [heq]
    show (((w.setRiderRide rid none).setRidersRide [] did).setDriverRide did
      _).getDriver did = _
    rw [World.getDriver_setDriverRide]
    have hinner : ((w.setRiderRide rid none).setRidersRide [] did).getDriver
        did = some d := hd
    rw [hinner]
    show some (if d.did = did then _ else d) = _
    rw [if_pos (World.getDriver_did hd)]
  · intro srv' h1 h2
    have hdirect' : calculate_direct_route srv' ride.start ride.destination =
        some dr := by
      unfold calculate_direct_route at hdirect ⊢
      rw [h1]
      exact hdirect
    have heq' := remove_sole_rider_eq srv' w did rid d r ride dr hd hr hride
      hsole hdirect'
    rw [heq, heq', updateRide_congr h2]

unseal Rat.mul Rat.add Rat.sub Rat.inv in
/-- C8 counterexample: in `w1` (rider 1 aboard, recorded direct duration
20 min) removing the sole rider against `srvSlow`, whose fresh direct route
takes 30 minutes, succeeds with 0 riders, `waypoint_order = [0, 1]` and one
leg — but `detour = 10`, not 0 as the claim states. -/
theorem remove_sole_rider_detour_not_zero :
    (removeRiderFromRide srvSlow w1 0 1).2 = true ∧
    (((removeRiderFromRide srvSlow w1 0 1).1.getDriver 0).bind
      DriverU.ride).map RideData.riders = some [] ∧
    (((removeRiderFromRide srvSlow w1 0 1).1.getDriver 0).bind
      DriverU.ride).map RideData.waypoint_order = some [0, 1] ∧
    (((removeRiderFromRide srvSlow w1 0 1).1.getDriver 0).bind
      DriverU.ride).map (fun rd => rd.leg_durations.length) = some 1 ∧
    (((removeRiderFromRide srvSlow w1 0 1).1.getDriver 0).bind
      DriverU.ride).map RideData.detour = some 10 ∧
    (10 : ℚ) ≠ 0 := by
  decide

/-- Driver 0 as stored in `w1`, carrying the two-rider route. -/
def drv1 : DriverU := (w1.getDriver 0).getD drv0

/-- `drv1`'s ride (rider 1 aboard). -/
def ride1 : RideData := drv1.ride.getD junkRide

/-- Rider 1 as stored in `w1` (its ride reference set to driver 0). -/
def rdr1w1 : RiderU := (w1.getRider 1).getD rdr1

/-- `w1` is reachable from the initial state `w0`. -/
theorem reach_w1 : Reachable w0 w1 :=
  Reachable.add w0 w0 srvA 0 1 (Reachable.refl w0)

/-- The direct route `srvSlow` reports for `drv1`'s commute. -/
def drSlow : DirectRouteResult :=
  (calculate_direct_route srvSlow ride1.start ride1.destination).getD
    { distance := 0, duration := 0, geometry := [] }

unseal Rat.mul Rat.add Rat.sub Rat.inv in
/-- Witness for the amended C8 at the concrete state `w1`. -/
theorem remove_sole_rider_direct_witness :
    (removeRiderFromRide srvSlow w1 0 1).2 = true :=
  (remove_sole_rider_direct srvSlow w1 0 1 drv1 rdr1w1 ride1 drSlow
    (by decide) (by decide) (by decide) (by decide) (by decide)).1

unseal Rat.mul Rat.add Rat.sub Rat.inv in
/-- C9 counterexample: `srvGeo`'s direct-route response carries the single
GeoJSON (lon, lat) coordinate (7, 50).  After the recomputation the Ride
stores geometry and matched geometry exactly as (7, 50) — the oracle's
(lon, lat) pair unswapped — not the (50, 7) the claim's
swap-on-every-response rule would give. -/
theorem geometry_stored_unswapped :
    ((srvGeo.directions (swapCoord ride1.start)
        (swapCoord ride1.destination)).map RawRoute.geometry =
      some [((7 : ℚ), (50 : ℚ))]) ∧
    (removeRiderFromRide srvGeo w1 0 1).2 = true ∧
    (((removeRiderFromRide srvGeo w1 0 1).1.getDriver 0).bind
      DriverU.ride).map (fun rd => rd.route.geometry) =
        some [((7 : ℚ), (50 : ℚ))] ∧
    (((removeRiderFromRide srvGeo w1 0 1).1.getDriver 0).bind
      DriverU.ride).map RideData.matched_geometry =
        some [((7 : ℚ), (50 : ℚ))] ∧
    ([((7 : ℚ), (50 : ℚ))] : List Coord) ≠
      ([((7 : ℚ), (50 : ℚ))] : List Coord).map swapCoord := by
  decide

/-- C9 amended: point data (driver home, rider homes, workplace) is stored
internally in (lat, lon) order and swapped into (lon, lat) for every oracle
request — the direct-route request probes the server exactly at the swapped
endpoints — but route geometry coming back from the oracle is stored in the
Ride verbatim in the oracle's (lon, lat) order, both as `route.geometry` and
(when road matching yields nothing) as `matched_geometry`; consumers swap it
on each use instead. -/
theorem route_geometry_kept_in_oracle_order (srv : Server) (w : World)
    (did rid : ℕ) (d : DriverU) (r : RiderU) (ride : RideData)
    (raw : RawRoute)
    (hd : w.getDriver did = some d) (hr : w.getRider rid = some r)
    (hride : d.ride = some ride) (hsole : ride.riders = [rid])
    (hraw : srv.directions (swapCoord ride.start)
      (swapCoord ride.destination) = some raw)
    (hm : srv.matchings = fun _ => none) :
    (removeRiderFromRide srv w did rid).2 = true ∧
    ∃ ride', (removeRiderFromRide srv w did rid).1.getDriver did =
        some { d with ride := some ride' } ∧
      ride'.route.geometry = raw.geometry ∧
      ride'.matched_geometry = raw.geometry := by
  have hdirect : calculate_direct_route srv ride.start ride.destination =
      some { distance := raw.distance / 1000, duration := raw.duration / 60,
             geometry := raw.geometry } := by
    unfold calculate_direct_route
    rw [hraw]
  have heq := remove_sole_rider_eq srv w did rid d r ride
    { distance := raw.distance / 1000, duration := raw.duration / 60,
      geometry := raw.geometry } hd hr hride hsole hdirect
  refine ⟨by rw [heq], updateRide srv ride [] w.homeOf
    { distance := raw.distance / 1000, duration := raw.duration / 60,
      waypoint_indices := [0, 1], leg_durations := [raw.duration / 60],
      geometry := raw.geometry, matched_geometry := some raw.geometry }
    ride.direct_duration, ?_, rfl, ?_⟩
  · rw [heq]
    show (((w.setRiderRide rid none).setRidersRide [] did).setDriverRide did
      _).getDriver did = _
    rw [World.getDriver_setDriverRide]
    have hinner : ((w.setRiderRide rid none).setRidersRide [] did).getDriver
        did = some d := hd
    rw [hinner]
    show some (if d.did = did then _ else d) = _
    rw [if_pos (World.getDriver_did hd)]
  · show (if raw.geometry = [] then raw.geometry
      else match match_route_to_roads srv (raw.geometry.map swapCoord) with
        | some m => m.geometry
        | none => raw.geometry) = raw.geometry
    rw [match_route_to_roads_none hm]
    split <;> rfl

unseal Rat.mul Rat.add Rat.sub Rat.inv in
/-- Witness for the amended C9 at the concrete state `w1` against
`srvGeo`. -/
theorem route_geometry_kept_in_oracle_order_witness :
    (removeRiderFromRide srvGeo w1 0 1).2 = true :=
  (route_geometry_kept_in_oracle_order srvGeo w1 0 1 drv1 rdr1w1 ride1
    { distance := 12000, duration := 1800, geometry := [(7, 50)] }
    (by decide) (by decide) (by decide) (by decide) (by decide) rfl).1

/-- C2: in every reachable session state, each driver's ride holds between 0
and `max_riders` riders, every rider aboard shares the driver's workplace,
and `detour = duration − direct_duration` when `duration > direct_duration`
and 0 otherwise — hence `detour ≥ 0`. -/
theorem reachable_ride_invariants {w₀ w : World} (hinit : InitWorld w₀)
    (hreach : Reachable w₀ w) :
    ∀ d ∈ w.drivers, ∀ rd, d.ride = some rd →
      0 ≤ rd.riders.length ∧ (rd.riders.length : ℤ) ≤ d.max_riders ∧
      (∀ r ∈ w.riders, r.rid ∈ rd.riders → r.workplace = d.workplace) ∧
      rd.detour = (if rd.direct_duration < rd.duration
                   then rd.duration - rd.direct_duration else 0) ∧
      0 ≤ rd.detour := by
  have hw := winv_reachable hinit hreach
  intro d hd rd hrd
  refine ⟨Nat.zero_le _, hw.cap d hd rd hrd, hw.wp d hd rd hrd,
    hw.det d hd rd hrd, ?_⟩
  rw [hw.det d hd rd hrd]
  split
  · rename_i hlt
    linarith
  · exact le_refl 0

unseal Rat.mul Rat.add Rat.sub Rat.inv in
/-- Witness for C2 at the reachable state `w1` (one successful add). -/
theorem reachable_ride_invariants_witness :
    0 ≤ ride1.riders.length ∧
    (ride1.riders.length : ℤ) ≤ drv1.max_riders ∧
    (∀ r ∈ w1.riders, r.rid ∈ ride1.riders → r.workplace = drv1.workplace) ∧
    ride1.detour = (if ride1.direct_duration < ride1.duration
                    then ride1.duration - ride1.direct_duration else 0) ∧
    0 ≤ ride1.detour :=
  reachable_ride_invariants initWorld_w0 reach_w1 drv1 (by decide) ride1
    (by decide)

/-- C3: in every reachable session state a rider's current-ride reference is
clear exactly when the rider is aboard no ride, and when set it names the
unique driver whose (duplicate-free) ride list contains the rider. -/
theorem rider_ride_ref_bidirectional {w₀ w : World} (hinit : InitWorld w₀)
    (hreach : Reachable w₀ w) :
    (∀ r ∈ w.riders,
      (r.ride = none → ∀ d ∈ w.drivers, ∀ rd, d.ride = some rd →
        r.rid ∉ rd.riders) ∧
      (∀ j, r.ride = some j →
        ∃ d ∈ w.drivers, d.did = j ∧ ∃ rd, d.ride = some rd ∧
          r.rid ∈ rd.riders ∧
          ∀ d' ∈ w.drivers, ∀ rd', d'.ride = some rd' →
            r.rid ∈ rd'.riders → d' = d)) ∧
    (∀ d ∈ w.drivers, ∀ rd, d.ride = some rd → rd.riders.Nodup) := by
  have hw := winv_reachable hinit hreach
  constructor
  · intro r hr
    constructor
    · intro hnone d hd rd hrd hmem
      have hfw := hw.fwd d hd rd hrd r hr hmem
      rw [hnone] at hfw
      cases hfw
    · intro j hj
      obtain ⟨d, hd, hdid, rd, hrd, hmem⟩ := hw.bwd r hr j hj
      refine ⟨d, hd, hdid, rd, hrd, hmem, ?_⟩
      intro d' hd' rd' hrd' hmem'
      have h1 := hw.fwd d' hd' rd' hrd' r hr hmem'
      rw [hj] at h1
      have h2 : j = d'.did := (Option.some.injEq _ _).mp h1
      exact driver_eq_of_did hw.did_nodup hd' hd (by rw [← h2, hdid])
  · exact hw.riders_nodup

unseal Rat.mul Rat.add Rat.sub Rat.inv in
/-- Witness for C3 at the reachable state `w1`: rider 1's reference points
at driver 0, whose ride contains it. -/
theorem rider_ride_ref_bidirectional_witness :
    rdr1w1.ride = some 0 ∧ rdr1w1.rid ∈ ride1.riders ∧
    drv1 ∈ w1.drivers ∧ drv1.did = 0 ∧ drv1.ride = some ride1 := by
  have h := (rider_ride_ref_bidirectional initWorld_w0 reach_w1).1 rdr1w1
    (by decide)
  obtain ⟨d, hd, hdid, rd, hrd, hmem, -⟩ := h.2 0 (by decide)
  exact ⟨by decide, by decide, by decide, by decide, by decide⟩

/-- C10: in every reachable session state a ride's stop list tracks its
rider list: equal length, the i-th stop being the home of the i-th rider
(an existing rider object of the session). -/
theorem stops_track_rider_homes {w₀ w : World} (hinit : InitWorld w₀)
    (hreach : Reachable w₀ w) :
    ∀ d ∈ w.drivers, ∀ rd, d.ride = some rd →
      rd.stops.length = rd.riders.length ∧
      rd.stops = rd.riders.map w.homeOf ∧
      (∀ i (h1 : i < rd.stops.length) (h2 : i < rd.riders.length),
        rd.stops.get ⟨i, h1⟩ = w.homeOf (rd.riders.get ⟨i, h2⟩)) ∧
      (∀ i ∈ rd.riders, ∃ r ∈ w.riders, r.rid = i ∧ w.homeOf i = r.home) := by
  have hw := winv_reachable hinit hreach
  intro d hd rd hrd
  have hst := hw.stops_eq d hd rd hrd
  refine ⟨by rw [hst]; exact List.length_map _ _, hst, ?_, ?_⟩
  · intro i h1 h2
    rw [List.get_of_eq hst ⟨i, h1⟩, List.get_map]
  · intro i hi
    obtain ⟨r, hrm, hri⟩ := hw.riders_exist d hd rd hrd i hi
    refine ⟨r, hrm, hri, ?_⟩
    unfold World.homeOf
    rw [← hri, World.getRider_of_mem hw.rid_nodup hrm]
    rfl

unseal Rat.mul Rat.add Rat.sub Rat.inv in
/-- Witness for C10 at the reachable state `w1`. -/
theorem stops_track_rider_homes_witness :
    ride1.stops.length = ride1.riders.length ∧
    ride1.stops = ride1.riders.map w1.homeOf ∧
    (∀ i ∈ ride1.riders, ∃ r ∈ w1.riders, r.rid = i ∧ w1.homeOf i = r.home) := by
  have h := stops_track_rider_homes initWorld_w0 reach_w1 drv1 (by decide)
    ride1 (by decide)
  exact ⟨h.1, h.2.1, h.2.2.2⟩
